import Mathlib

/-!
Verification of the BSU-Research dashboard data layer (dashboard JS file):
JS-style integer parsing, year/month normalization, quarterly and college
aggregation, cache validity, and the load orchestration, embedded shallowly.
-/

namespace BSUDash

/-! ## JS-style integer parsing

Models JavaScript parseInt.  A parse result of none models NaN.
digitsToNat folds the longest leading decimal-digit run.
-/

def digitsToNat (ds : List Char) : Nat :=
  ds.foldl (fun a c => 10 * a + (c.toNat - 48)) 0

def parseDigits (cs : List Char) : Option Nat :=
  let ds := cs.takeWhile Char.isDigit
  if ds.isEmpty then none else some (digitsToNat ds)

/-- Sign handling of parseInt after whitespace has been skipped. -/
def signedParse (cs : List Char) : Option Int :=
  match cs with
  | [] => none
  | c :: rest =>
    if c = '-' then (parseDigits rest).map (fun n => -(n : Int))
    else if c = '+' then (parseDigits rest).map (fun n => (n : Int))
    else (parseDigits (c :: rest)).map (fun n => (n : Int))

/-- Models parseInt(s, 10): skip leading whitespace, optional sign, longest
decimal digit run; none models NaN. -/
def parseIntCore (cs : List Char) : Option Int :=
  signedParse (cs.dropWhile Char.isWhitespace)

def hexDigitVal (c : Char) : Option Nat :=
  if c.isDigit then some (c.toNat - 48)
  else if 'a' ≤ c ∧ c ≤ 'f' then some (c.toNat - 87)
  else if 'A' ≤ c ∧ c ≤ 'F' then some (c.toNat - 55)
  else none

def isHexDigitB (c : Char) : Bool := (hexDigitVal c).isSome

def hexToNat (ds : List Char) : Nat :=
  ds.foldl (fun a c => 16 * a + ((hexDigitVal c).getD 0)) 0

def parseHexDigits (cs : List Char) : Option Nat :=
  let ds := cs.takeWhile isHexDigitB
  if ds.isEmpty then none else some (hexToNat ds)

/-- Magnitude parse of radix-less parseInt: a 0x/0X marker switches to hex. -/
def parseAbsNoRadix (cs : List Char) : Option Nat :=
  match cs with
  | c0 :: c1 :: rest =>
      if c0 = '0' ∧ (c1 = 'x' ∨ c1 = 'X') then parseHexDigits rest
      else parseDigits cs
  | _ => parseDigits cs

def signedParseNoRadix (cs : List Char) : Option Int :=
  match cs with
  | [] => none
  | c :: rest =>
    if c = '-' then (parseAbsNoRadix rest).map (fun n => -(n : Int))
    else if c = '+' then (parseAbsNoRadix rest).map (fun n => (n : Int))
    else (parseAbsNoRadix (c :: rest)).map (fun n => (n : Int))

/-- Models parseInt(s) with no radix argument, as used on months and
cache timestamps by the source. -/
def parseIntNoRadix (cs : List Char) : Option Int :=
  signedParseNoRadix (cs.dropWhile Char.isWhitespace)

/-- Models the JS String.prototype.trim on the right end. -/
def trimRight (cs : List Char) : List Char :=
  (cs.reverse.dropWhile Char.isWhitespace).reverse

/-- Models the JS String.prototype.trim (both ends). -/
def jsTrim (cs : List Char) : List Char :=
  (trimRight cs).dropWhile Char.isWhitespace

/-! ## JS values

Values reaching the year / month / colleges fields of a publication record
come from JSON, so they are null, finite numbers, strings, booleans, arrays
or objects.  Booleans, arrays and objects are folded into the other
constructor carrying its JS string coercion ("true", "[object Object]", ...).
A missing field reads as undefined.
-/

inductive JSVal where
  | null
  | undefined
  | num (q : ℚ)
  | str (s : String)
  | other (coerced : String)
deriving DecidableEq

/-- Truncation toward zero, the value of parseInt(String(q)) for a finite
number q whose JS rendering is plain decimal notation. -/
def ratTrunc (q : ℚ) : Int :=
  if 0 ≤ q then q.floor else -((-q).floor)

/-! ## Year normalization (getPubYear in loadDashboardData) -/

/-- Embeds getPubYear from the source:
null/undefined and the empty string give null; a finite number gives its
Math.floor; a string s takes parseInt of the trimmed part before the first
slash, falling back (JS || on a falsy result, i.e. NaN or 0) to parseInt of
the trimmed whole string; any other value is coerced to its string and
parsed with parseInt(x, 10). -/
def getPubYear (v : JSVal) : Option Int :=
  match v with
  | .null => none
  | .undefined => none
  | .num q => some q.floor
  | .str s =>
      if s = "" then none
      else
        let cs := s.data
        let first := cs.takeWhile (fun c => c ≠ '/')
        let r1 := parseIntCore (jsTrim first)
        let r2 := parseIntCore (jsTrim cs)
        match r1 with
        | some y => if y = 0 then r2 else some y
        | none => r2
  | .other s => parseIntCore s.data

/-- Modelled from the spec: the normalizeYear contract of spec section 4.2,
written from the spec's words to be compared with getPubYear.  Rules in
order: null or empty string gives null; a finite number gives its integer
floor; a string containing a slash parses the trimmed substring before the
first slash, falling back to the trimmed whole string only when that parse
fails; any other string is parsed as an integer; any other type is coerced
and parsed; unparseable gives null. -/
def normalizeYearSpec (v : JSVal) : Option Int :=
  match v with
  | .null => none
  | .undefined => none
  | .num q => some q.floor
  | .str s =>
      if s = "" then none
      else if '/' ∈ s.data then
        match parseIntCore (jsTrim (s.data.takeWhile (fun c => c ≠ '/'))) with
        | some y => some y
        | none => parseIntCore (jsTrim s.data)
      else parseIntCore s.data
  | .other s => parseIntCore s.data

/-! ## Publication records and aggregation -/

structure Pub where
  year : JSVal
  month : JSVal
  /-- none models an absent / null / undefined colleges field
  (the source reads pub.colleges || []). -/
  colleges : Option (List String)
deriving DecidableEq

structure QuarterlyCounts where
  q1 : Nat
  q2 : Nat
  q3 : Nat
  q4 : Nat
deriving DecidableEq

structure CollegeCounts where
  engineering : Nat
  informatics_computing : Nat
  engineering_technology : Nat
  architecture_design : Nat
deriving DecidableEq

/-- The three accumulators of the quarterly loop: the quarterly_counts
object, publicationsWithoutMonth and publicationsCountedInTotal. -/
structure QState where
  qc : QuarterlyCounts
  without : Nat
  counted : Nat
deriving DecidableEq

def initQState : QState := ⟨⟨0, 0, 0, 0⟩, 0, 0⟩

/-- The month-presence guard of the loop:
month !== null && month !== undefined && month !== ''. -/
def monthPresent (v : JSVal) : Bool :=
  match v with
  | .null => false
  | .undefined => false
  | .str s => !(s == "")
  | _ => true

/-- The value of parseInt(month) (no radix) on a present month value; a
number is truncated toward zero (parseInt of its decimal rendering). -/
def parseMonth : JSVal → Option Int
  | .num q => some (ratTrunc q)
  | .str s => parseIntNoRadix s.data
  | .other s => parseIntNoRadix s.data
  | .null => none
  | .undefined => none

/-- pubQuarter of the source: the fixed month-to-quarter mapping, 0 when
the month is outside 1..12. -/
def quarterOfMonthInt (m : Int) : Nat :=
  if 1 ≤ m ∧ m ≤ 3 then 1
  else if 4 ≤ m ∧ m ≤ 6 then 2
  else if 7 ≤ m ∧ m ≤ 9 then 3
  else if 10 ≤ m ∧ m ≤ 12 then 4
  else 0

/-- currentQuarter of the source, defaulted to 1. -/
def currentQuarterOf (m : Int) : Nat :=
  if 1 ≤ m ∧ m ≤ 3 then 1
  else if 4 ≤ m ∧ m ≤ 6 then 2
  else if 7 ≤ m ∧ m ≤ 9 then 3
  else if 10 ≤ m ∧ m ≤ 12 then 4
  else 1

def bumpQuarter (qc : QuarterlyCounts) (q : Nat) : QuarterlyCounts :=
  if q = 1 then { qc with q1 := qc.q1 + 1 }
  else if q = 2 then { qc with q2 := qc.q2 + 1 }
  else if q = 3 then { qc with q3 := qc.q3 + 1 }
  else if q = 4 then { qc with q4 := qc.q4 + 1 }
  else qc

/-- The invalid/missing-month arm of the loop: bump
publicationsWithoutMonth, and bump the running total only outside the
current year. -/
def withoutBump (isCur : Bool) (a : QState) : QState :=
  { a with without := a.without + 1,
           counted := if isCur then a.counted else a.counted + 1 }

/-- The valid-month arm: count the quarter and the running total unless the
quarter lies beyond the current quarter of the current year. -/
def tallyValidMonth (isCur : Bool) (curQ : Nat) (a : QState) (m : Int) : QState :=
  let q := quarterOfMonthInt m
  if 0 < q ∧ (isCur = false ∨ q ≤ curQ) then
    { a with qc := bumpQuarter a.qc q, counted := a.counted + 1 }
  else a

/-- One iteration of the quarterly forEach over a filtered publication. -/
def tallyPub (isCur : Bool) (curQ : Nat) (a : QState) (p : Pub) : QState :=
  if monthPresent p.month then
    match parseMonth p.month with
    | some m =>
        if 1 ≤ m ∧ m ≤ 12 then tallyValidMonth isCur curQ a m
        else withoutBump isCur a
    | none => withoutBump isCur a
  else withoutBump isCur a

/-- filteredPublications: records whose normalized year equals the filter
year (yearValue !== null && yearValue === filterYear). -/
def filteredPubs (pubs : List Pub) (fy : Int) : List Pub :=
  pubs.filter (fun p => getPubYear p.year = some fy)

/-- The quarterly recomputation: runs the loop over the filtered records
and pairs the final state with total_publications
(= countedInTotal for the current year, else the filtered subset size). -/
def computeQuarterly (pubs : List Pub) (fy nowYear nowMonth : Int) :
    QState × Nat :=
  let fp := filteredPubs pubs fy
  let isCur : Bool := decide (fy = nowYear)
  let curQ := currentQuarterOf nowMonth
  let a := fp.foldl (tallyPub isCur curQ) initQState
  (a, if isCur then a.counted else fp.length)

/-- The condition of the "Quarterly count mismatch" console warning. -/
def mismatchWarned (pubs : List Pub) (fy nowYear nowMonth : Int) : Bool :=
  let r := computeQuarterly pubs fy nowYear nowMonth
  decide (r.1.qc.q1 + r.1.qc.q2 + r.1.qc.q3 + r.1.qc.q4 + r.1.without ≠ r.2)
    && !(decide (fy = nowYear))

/-- One colleges entry: increment the counter whose own key exactly matches
(college_counts.hasOwnProperty(c)); anything else is ignored. -/
def collegeStep (cc : CollegeCounts) (c : String) : CollegeCounts :=
  if c = "engineering" then { cc with engineering := cc.engineering + 1 }
  else if c = "informatics_computing" then
    { cc with informatics_computing := cc.informatics_computing + 1 }
  else if c = "engineering_technology" then
    { cc with engineering_technology := cc.engineering_technology + 1 }
  else if c = "architecture_design" then
    { cc with architecture_design := cc.architecture_design + 1 }
  else cc

/-- One record of the college forEach: (pub.colleges || []).forEach. -/
def tallyColleges (cc : CollegeCounts) (p : Pub) : CollegeCounts :=
  (p.colleges.getD []).foldl collegeStep cc

/-- The college recomputation over the filtered records, starting from the
four keys at 0. -/
def computeCollegeCounts (pubs : List Pub) : CollegeCounts :=
  pubs.foldl tallyColleges ⟨0, 0, 0, 0⟩

/-! ## Dashboard stats, cache store and the loaders -/

/-- The DashboardStats shape.  department_counts,
department_quarterly_counts and earliest_year are display passthrough
fields never recomputed by the filter path; an absent optional field is
the empty list / none. -/
structure DashboardStats where
  total_publications : Nat
  college_counts : CollegeCounts
  quarterly_counts : QuarterlyCounts
  department_counts : List (String × Nat)
  department_quarterly_counts : List (String × QuarterlyCounts)
  earliest_year : Option Int
deriving DecidableEq

/-- The all-zero stats literal rendered when a fetch fails with no cache
(its JS literal has no department_quarterly_counts or earliest_year,
modelled as the empty list and none). -/
def zeroStats : DashboardStats :=
  { total_publications := 0,
    college_counts := ⟨0, 0, 0, 0⟩,
    quarterly_counts := ⟨0, 0, 0, 0⟩,
    department_counts := [],
    department_quarterly_counts := [],
    earliest_year := none }

/-- The envelope stored under CACHE_KEY: the bulk response, with the raw
publications list (cachedData.publications may be absent). -/
structure CacheEnvelope where
  dashboard_stats : DashboardStats
  publications : Option (List Pub)
deriving DecidableEq

/-- The three localStorage entries.  data is the parsed result of
getCachedData: none models both an absent blob and a malformed one
(JSON.parse failure returns null).  timestamp and version hold the raw
stored strings, none when the key is absent. -/
structure Store where
  data : Option CacheEnvelope
  timestamp : Option String
  version : Option String
deriving DecidableEq

def CACHE_VERSION : Int := 2

/-- 24 hours in milliseconds. -/
def CACHE_DURATION : Int := 24 * 60 * 60 * 1000

/-- The parsed stored version marker,
parseInt(localStorage.getItem(CACHE_VERSION_KEY), 10): an absent key
reads as null, whose coercion "null" parses to NaN, modelled none. -/
def storedVersion (st : Store) : Option Int :=
  match st.version with
  | none => none
  | some s => parseIntCore s.data

/-- Embeds isCacheValid: the parsed stored version must equal
CACHE_VERSION; a falsy timestamp fails; the age
now - parseInt(timestamp) must be strictly below CACHE_DURATION (a NaN
age compares false). -/
def isCacheValid (st : Store) (now : Int) : Bool :=
  match storedVersion st with
  | none => false
  | some v =>
      if v = CACHE_VERSION then
        match st.timestamp with
        | none => false
        | some ts =>
            if ts = "" then false
            else
              match parseIntNoRadix ts.data with
              | none => false
              | some t => decide (now - t < CACHE_DURATION)
      else false

/-- The guard of the cached fast path of loadAllData:
isCacheValid() and getCachedData() non-null. -/
def usesCache (st : Store) (now : Int) : Bool :=
  isCacheValid st now && st.data.isSome

/-- The outcome of the awaited fetch of /all-data.  failure covers a
network error, a non-ok response, an unparseable body and a truthy
data.error field; success carries the parsed envelope. -/
inductive FetchResult where
  | failure
  | success (env : CacheEnvelope)
deriving DecidableEq

/-- setCachedData: store the envelope, the stringified now and the
stringified version. -/
def setCachedData (env : CacheEnvelope) (now : Int) : Store :=
  { data := some env,
    timestamp := some (toString now),
    version := some (toString CACHE_VERSION) }

/-- The fetch path of loadAllData: on success cache and render the fresh
stats; on failure render the (possibly expired) cached stats when any
cache exists, else the all-zero literal.  The Bool records that a network
request was issued. -/
def fetchBranch (st : Store) (now : Int) (f : FetchResult) :
    Store × DashboardStats × Bool :=
  match f with
  | .success env => (setCachedData env now, env.dashboard_stats, true)
  | .failure =>
      match st.data with
      | some env => (st, env.dashboard_stats, true)
      | none => (st, zeroStats, true)

/-- Embeds loadAllData: a valid cache with a readable envelope renders the
cached stats with no request; otherwise the fetch path runs. -/
def loadAllData (st : Store) (now : Int) (f : FetchResult) :
    Store × DashboardStats × Bool :=
  if usesCache st now then
    match st.data with
    | some env => (st, env.dashboard_stats, false)
    | none => fetchBranch st now f
  else fetchBranch st now f

/-- Merge of the recomputed fields into a copy of the cached stats
(the spread in the source). -/
def mergeStats (base : DashboardStats) (total : Nat)
    (qc : QuarterlyCounts) (cc : CollegeCounts) : DashboardStats :=
  { base with total_publications := total,
              quarterly_counts := qc,
              college_counts := cc }

/-- Embeds loadDashboardData(year): no cache delegates to loadAllData; a
falsy year ('') or an unparseable year renders the cached stats
unchanged; otherwise the quarterly and college aggregations are recomputed
over the cached publications and merged.  The Bool records whether a
network request was issued. -/
def loadDashboardData (st : Store) (now nowYear nowMonth : Int)
    (f : FetchResult) (year : String) : Store × DashboardStats × Bool :=
  match st.data with
  | none => loadAllData st now f
  | some env =>
      let stats := env.dashboard_stats
      if year = "" then (st, stats, false)
      else
        match parseIntCore year.data with
        | none => (st, stats, false)
        | some fy =>
            let pubs := env.publications.getD []
            let r := computeQuarterly pubs fy nowYear nowMonth
            let cc := computeCollegeCounts (filteredPubs pubs fy)
            (st, mergeStats stats r.2 r.1.qc cc, false)

/-! ## Helper lemmas on parsing -/

lemma dropWhile_idem (f : Char → Bool) (l : List Char) :
    (l.dropWhile f).dropWhile f = l.dropWhile f := by
  induction l with
  | nil => rfl
  | cons a t ih =>
    by_cases h : f a = true
    · simp [List.dropWhile_cons, h, ih]
    · simp [List.dropWhile_cons, h]

lemma dropWhile_eq_nil_of_all (f : Char → Bool) (l : List Char)
    (h : ∀ c ∈ l, f c = true) : l.dropWhile f = [] := by
  induction l with
  | nil => rfl
  | cons a t ih =>
    simp [List.dropWhile_cons, h a (List.mem_cons_self a t),
      ih (fun c hc => h c (List.mem_cons_of_mem a hc))]

lemma dropWhile_append_nil (f : Char → Bool) (u v : List Char)
    (h : u.dropWhile f = []) : (u ++ v).dropWhile f = v.dropWhile f := by
  induction u with
  | nil => rfl
  | cons a t ih =>
    by_cases ha : f a = true
    · rw [List.dropWhile_cons, if_pos ha] at h
      simpa [List.dropWhile_cons, ha] using ih h
    · rw [List.dropWhile_cons, if_neg ha] at h
      exact absurd h (by simp)

lemma dropWhile_append_cons (f : Char → Bool) (u v : List Char)
    (c : Char) (r : List Char) (h : u.dropWhile f = c :: r) :
    (u ++ v).dropWhile f = c :: (r ++ v) := by
  induction u with
  | nil =>
    simp only [List.dropWhile_nil] at h
    cases h
  | cons a t ih =>
    by_cases ha : f a = true
    · rw [List.dropWhile_cons, if_pos ha] at h
      simpa [List.dropWhile_cons, ha] using ih h
    · rw [List.dropWhile_cons, if_neg ha] at h
      cases h
      simp [List.dropWhile_cons, ha]

lemma takeWhile_eq_nil_of_all_not (f : Char → Bool) (v : List Char)
    (h : ∀ c ∈ v, f c = false) : v.takeWhile f = [] := by
  cases v with
  | nil => rfl
  | cons a t => simp [List.takeWhile_cons, h a (List.mem_cons_self a t)]

lemma takeWhile_append_all_not (f : Char → Bool) (u v : List Char)
    (h : ∀ c ∈ v, f c = false) :
    (u ++ v).takeWhile f = u.takeWhile f := by
  induction u with
  | nil => simpa using takeWhile_eq_nil_of_all_not f v h
  | cons a t ih =>
    by_cases ha : f a = true <;> simp [List.takeWhile_cons, ha, ih]

lemma takeWhile_append_cons_not (f : Char → Bool) (u : List Char)
    (c : Char) (v : List Char) (h : f c = false) :
    (u ++ c :: v).takeWhile f = u.takeWhile f := by
  induction u with
  | nil => simp [List.takeWhile_cons, h]
  | cons a t ih =>
    by_cases ha : f a = true <;> simp [List.takeWhile_cons, ha, ih]

lemma parseDigits_append_all_not (u v : List Char)
    (h : ∀ c ∈ v, c.isDigit = false) :
    parseDigits (u ++ v) = parseDigits u := by
  unfold parseDigits
  rw [takeWhile_append_all_not _ _ _ h]

lemma parseDigits_append_cons_not (u : List Char) (c : Char) (v : List Char)
    (h : c.isDigit = false) :
    parseDigits (u ++ c :: v) = parseDigits u := by
  unfold parseDigits
  rw [takeWhile_append_cons_not _ _ _ _ h]

lemma ws_not_digit (c : Char) (h : c.isWhitespace = true) :
    c.isDigit = false := by
  simp only [Char.isWhitespace, Bool.or_eq_true, decide_eq_true_eq] at h
  rcases h with ((h | h) | h) | h <;> subst h <;> decide

lemma parseIntCore_append_ws (u v : List Char)
    (hv : ∀ c ∈ v, c.isWhitespace = true) :
    parseIntCore (u ++ v) = parseIntCore u := by
  have hnd : ∀ x ∈ v, Char.isDigit x = false :=
    fun x hx => ws_not_digit x (hv x hx)
  unfold parseIntCore
  cases hu : u.dropWhile Char.isWhitespace with
  | nil =>
    rw [dropWhile_append_nil _ _ _ hu, dropWhile_eq_nil_of_all _ _ hv]
  | cons c r =>
    rw [dropWhile_append_cons _ _ _ _ _ hu]
    by_cases h1 : c = '-'
    · subst h1
      simp [signedParse, parseDigits_append_all_not _ _ hnd]
    · by_cases h2 : c = '+'
      · subst h2
        simp [signedParse, parseDigits_append_all_not _ _ hnd]
      · have hcr : c :: (r ++ v) = (c :: r) ++ v := rfl
        simp only [signedParse, if_neg h1, if_neg h2]
        rw [hcr, parseDigits_append_all_not _ _ hnd]

lemma parseIntCore_append_slash (u v : List Char) :
    parseIntCore (u ++ '/' :: v) = parseIntCore u := by
  unfold parseIntCore
  cases hu : u.dropWhile Char.isWhitespace with
  | nil =>
    rw [dropWhile_append_nil _ _ _ hu]
    have hw : ('/' :: v).dropWhile Char.isWhitespace = '/' :: v := by
      simp [List.dropWhile_cons]
    rw [hw]
    have hd : Char.isDigit '/' = false := by decide
    have hne1 : ('/' : Char) ≠ '-' := by decide
    have hne2 : ('/' : Char) ≠ '+' := by decide
    simp [signedParse, parseDigits, List.takeWhile_cons, hd, hne1, hne2]
  | cons c r =>
    rw [dropWhile_append_cons _ _ _ _ _ hu]
    by_cases h1 : c = '-'
    · subst h1
      simp [signedParse, parseDigits_append_cons_not _ _ _ (by decide : Char.isDigit '/' = false)]
    · by_cases h2 : c = '+'
      · subst h2
        simp [signedParse, parseDigits_append_cons_not _ _ _ (by decide : Char.isDigit '/' = false)]
      · have hcr : c :: (r ++ '/' :: v) = (c :: r) ++ '/' :: v := rfl
        simp only [signedParse, if_neg h1, if_neg h2]
        rw [hcr, parseDigits_append_cons_not _ _ _ (by decide : Char.isDigit '/' = false)]

lemma trimRight_spec (l : List Char) :
    ∃ t, l = trimRight l ++ t ∧ ∀ c ∈ t, c.isWhitespace = true := by
  refine ⟨(l.reverse.takeWhile Char.isWhitespace).reverse, ?_, ?_⟩
  · conv_lhs => rw [← List.reverse_reverse l,
      ← List.takeWhile_append_dropWhile (p := Char.isWhitespace) (l := l.reverse)]
    rw [List.reverse_append]
    rfl
  · intro c hc
    rw [List.mem_reverse] at hc
    exact List.mem_takeWhile_imp hc

lemma parseIntCore_trimRight (l : List Char) :
    parseIntCore (trimRight l) = parseIntCore l := by
  obtain ⟨t, hl, ht⟩ := trimRight_spec l
  conv_rhs => rw [hl]
  rw [parseIntCore_append_ws _ _ ht]

lemma parseIntCore_jsTrim (l : List Char) :
    parseIntCore (jsTrim l) = parseIntCore l := by
  unfold jsTrim
  have h1 : parseIntCore ((trimRight l).dropWhile Char.isWhitespace) =
      parseIntCore (trimRight l) := by
    unfold parseIntCore
    rw [dropWhile_idem]
  rw [h1, parseIntCore_trimRight]

lemma takeWhile_ne_slash_of_not_mem (l : List Char) (h : '/' ∉ l) :
    l.takeWhile (fun c => c ≠ '/') = l := by
  induction l with
  | nil => rfl
  | cons a t ih =>
    have ha : a ≠ '/' := fun hh => h (hh ▸ List.mem_cons_self a t)
    have ht : '/' ∉ t := fun hh => h (List.mem_cons_of_mem a hh)
    have hb : (fun c => decide (c ≠ '/')) a = true := by simp [ha]
    rw [List.takeWhile_cons, if_pos hb, ih ht]

lemma dropWhile_slash_mem (l : List Char) (h : '/' ∈ l) :
    ∃ r, l.dropWhile (fun c => c ≠ '/') = '/' :: r := by
  induction l with
  | nil => cases h
  | cons a t ih =>
    by_cases ha : a = '/'
    · subst ha
      exact ⟨t, by simp [List.dropWhile_cons]⟩
    · have hmem : '/' ∈ t := by
        rcases List.mem_cons.mp h with h1 | h1
        · exact absurd h1.symm ha
        · exact h1
      obtain ⟨r, hr⟩ := ih hmem
      have hb : (fun c => decide (c ≠ '/')) a = true := by simp [ha]
      exact ⟨r, by rw [List.dropWhile_cons, if_pos hb, hr]⟩

lemma parseIntCore_nil : parseIntCore [] = none := rfl

/-! ## Helper lemmas on the quarterly loop -/

/-- Sum of the four quarter counters. -/
def qsum (a : QState) : Nat := a.qc.q1 + a.qc.q2 + a.qc.q3 + a.qc.q4

/-- Sum of the four quarter counters and the without-month counter. -/
def qwsum (a : QState) : Nat := qsum a + a.without

lemma quarterOfMonthInt_pos (m : Int) (h1 : 1 ≤ m) (h2 : m ≤ 12) :
    0 < quarterOfMonthInt m := by
  unfold quarterOfMonthInt
  split_ifs <;> omega

lemma bumpQuarter_sum (qc : QuarterlyCounts) (m : Int) (h1 : 1 ≤ m)
    (h2 : m ≤ 12) :
    (bumpQuarter qc (quarterOfMonthInt m)).q1 +
    (bumpQuarter qc (quarterOfMonthInt m)).q2 +
    (bumpQuarter qc (quarterOfMonthInt m)).q3 +
    (bumpQuarter qc (quarterOfMonthInt m)).q4 =
    qc.q1 + qc.q2 + qc.q3 + qc.q4 + 1 := by
  unfold quarterOfMonthInt
  split_ifs <;> simp [bumpQuarter] <;> omega

lemma tallyPub_false_qwsum (curQ : Nat) (a : QState) (p : Pub) :
    qwsum (tallyPub false curQ a p) = qwsum a + 1 := by
  cases hmp : monthPresent p.month with
  | false =>
    simp [tallyPub, hmp, withoutBump, qwsum, qsum]
    try omega
  | true =>
    cases hm : parseMonth p.month with
    | none =>
      simp [tallyPub, hmp, hm, withoutBump, qwsum, qsum]
      try omega
    | some m =>
      by_cases hr : 1 ≤ m ∧ m ≤ 12
      · have hq := quarterOfMonthInt_pos m hr.1 hr.2
        have hb := bumpQuarter_sum a.qc m hr.1 hr.2
        simp [tallyPub, hmp, hm, hr, tallyValidMonth, hq, qwsum, qsum]
        omega
      · simp [tallyPub, hmp, hm, hr, withoutBump, qwsum, qsum]
        try omega

lemma tallyPub_true_inv (curQ : Nat) (a : QState) (p : Pub) :
    qsum (tallyPub true curQ a p) + a.counted =
    (tallyPub true curQ a p).counted + qsum a := by
  cases hmp : monthPresent p.month with
  | false =>
    simp [tallyPub, hmp, withoutBump, qsum]
    try omega
  | true =>
    cases hm : parseMonth p.month with
    | none =>
      simp [tallyPub, hmp, hm, withoutBump, qsum]
      try omega
    | some m =>
      by_cases hr : 1 ≤ m ∧ m ≤ 12
      · have hq := quarterOfMonthInt_pos m hr.1 hr.2
        have hb := bumpQuarter_sum a.qc m hr.1 hr.2
        by_cases hc : quarterOfMonthInt m ≤ curQ
        · simp [tallyPub, hmp, hm, hr, tallyValidMonth, hq, hc, qsum]
          omega
        · simp [tallyPub, hmp, hm, hr, tallyValidMonth, hq, hc, qsum]
          try omega
      · simp [tallyPub, hmp, hm, hr, withoutBump, qsum]
        try omega

lemma foldl_tally_false_qwsum (curQ : Nat) (l : List Pub) :
    ∀ a : QState,
      qwsum (l.foldl (tallyPub false curQ) a) = qwsum a + l.length := by
  induction l with
  | nil => intro a; simp
  | cons p t ih =>
    intro a
    rw [List.foldl_cons, ih]
    rw [tallyPub_false_qwsum]
    simp [List.length_cons]
    omega

lemma foldl_tally_true_inv (curQ : Nat) (l : List Pub) :
    ∀ a : QState,
      qsum (l.foldl (tallyPub true curQ) a) + a.counted =
      (l.foldl (tallyPub true curQ) a).counted + qsum a := by
  induction l with
  | nil => intro a; simp; omega
  | cons p t ih =>
    intro a
    rw [List.foldl_cons]
    have h1 := tallyPub_true_inv curQ a p
    have h2 := ih (tallyPub true curQ a p)
    omega

lemma tallyPub_false_curQ_irrel (q q' : Nat) (a : QState) (p : Pub) :
    tallyPub false q a p = tallyPub false q' a p := by
  cases hmp : monthPresent p.month with
  | false => simp [tallyPub, hmp]
  | true =>
    cases hm : parseMonth p.month with
    | none => simp [tallyPub, hmp, hm]
    | some m =>
      by_cases hr : 1 ≤ m ∧ m ≤ 12
      · simp [tallyPub, hmp, hm, hr, tallyValidMonth]
      · simp [tallyPub, hmp, hm, hr]

lemma computeQuarterly_eq_noncur (pubs : List Pub) (fy ny nm : Int)
    (h : fy ≠ ny) :
    computeQuarterly pubs fy ny nm =
      ((filteredPubs pubs fy).foldl
          (tallyPub false (currentQuarterOf nm)) initQState,
       (filteredPubs pubs fy).length) := by
  have hd : decide (fy = ny) = false := decide_eq_false h
  simp [computeQuarterly, hd]

lemma computeQuarterly_eq_cur (pubs : List Pub) (fy nm : Int) :
    computeQuarterly pubs fy fy nm =
      ((filteredPubs pubs fy).foldl
          (tallyPub true (currentQuarterOf nm)) initQState,
       ((filteredPubs pubs fy).foldl
          (tallyPub true (currentQuarterOf nm)) initQState).counted) := by
  simp [computeQuarterly]

/-! ## Claim theorems -/

/-- Claim C6: college aggregation starts the four fixed keys at 0; an
entry that exactly matches one of the four keys increments exactly that
counter; any other entry is silently ignored; and the three-record example
yields engineering 2, informatics_computing 1 and zeros elsewhere. -/
theorem c6_college_aggregation :
    computeCollegeCounts [] = ⟨0, 0, 0, 0⟩
  ∧ (∀ cc : CollegeCounts, collegeStep cc "engineering" =
        { cc with engineering := cc.engineering + 1 })
  ∧ (∀ cc : CollegeCounts, collegeStep cc "informatics_computing" =
        { cc with informatics_computing := cc.informatics_computing + 1 })
  ∧ (∀ cc : CollegeCounts, collegeStep cc "engineering_technology" =
        { cc with engineering_technology := cc.engineering_technology + 1 })
  ∧ (∀ cc : CollegeCounts, collegeStep cc "architecture_design" =
        { cc with architecture_design := cc.architecture_design + 1 })
  ∧ (∀ (cc : CollegeCounts) (c : String),
        c ≠ "engineering" → c ≠ "informatics_computing" →
        c ≠ "engineering_technology" → c ≠ "architecture_design" →
        collegeStep cc c = cc)
  ∧ computeCollegeCounts
      [⟨.null, .null, some ["engineering"]⟩,
       ⟨.null, .null, some ["engineering", "informatics_computing"]⟩,
       ⟨.null, .null, some []⟩] = ⟨2, 1, 0, 0⟩ := by
  refine ⟨by decide, ?_, ?_, ?_, ?_, ?_, by decide⟩
  · intro cc; simp [collegeStep]
  · intro cc; simp [collegeStep]
  · intro cc; simp [collegeStep]
  · intro cc; simp [collegeStep]
  · intro cc c h1 h2 h3 h4; simp [collegeStep, h1, h2, h3, h4]

/-- Witness for C6 at a concrete unknown college identifier. -/
theorem c6_college_aggregation_witness :
    collegeStep ⟨0, 0, 0, 0⟩ "unknown_college" = ⟨0, 0, 0, 0⟩ :=
  c6_college_aggregation.2.2.2.2.2.1 ⟨0, 0, 0, 0⟩ "unknown_college"
    (by decide) (by decide) (by decide) (by decide)

/-- Claim C9: after the quarterly loop, for a non-current filter year the
four quarter counters plus the without-month counter sum to
total_publications (so the "Quarterly count mismatch" warning branch never
fires), and for the current filter year the four quarter counters sum to
total_publications exactly. -/
theorem c9_quarterly_sum_invariant (pubs : List Pub) (fy ny nm : Int) :
    (fy ≠ ny →
      (computeQuarterly pubs fy ny nm).1.qc.q1 +
      (computeQuarterly pubs fy ny nm).1.qc.q2 +
      (computeQuarterly pubs fy ny nm).1.qc.q3 +
      (computeQuarterly pubs fy ny nm).1.qc.q4 +
      (computeQuarterly pubs fy ny nm).1.without =
      (computeQuarterly pubs fy ny nm).2)
  ∧ (fy = ny →
      (computeQuarterly pubs fy ny nm).1.qc.q1 +
      (computeQuarterly pubs fy ny nm).1.qc.q2 +
      (computeQuarterly pubs fy ny nm).1.qc.q3 +
      (computeQuarterly pubs fy ny nm).1.qc.q4 =
      (computeQuarterly pubs fy ny nm).2)
  ∧ mismatchWarned pubs fy ny nm = false := by
  have hA : fy ≠ ny →
      (computeQuarterly pubs fy ny nm).1.qc.q1 +
      (computeQuarterly pubs fy ny nm).1.qc.q2 +
      (computeQuarterly pubs fy ny nm).1.qc.q3 +
      (computeQuarterly pubs fy ny nm).1.qc.q4 +
      (computeQuarterly pubs fy ny nm).1.without =
      (computeQuarterly pubs fy ny nm).2 := by
    intro h
    rw [computeQuarterly_eq_noncur pubs fy ny nm h]
    have hs := foldl_tally_false_qwsum (currentQuarterOf nm)
      (filteredPubs pubs fy) initQState
    simp only [qwsum, qsum, initQState] at hs
    simp only [initQState]
    omega
  have hB : fy = ny →
      (computeQuarterly pubs fy ny nm).1.qc.q1 +
      (computeQuarterly pubs fy ny nm).1.qc.q2 +
      (computeQuarterly pubs fy ny nm).1.qc.q3 +
      (computeQuarterly pubs fy ny nm).1.qc.q4 =
      (computeQuarterly pubs fy ny nm).2 := by
    intro h
    subst h
    rw [computeQuarterly_eq_cur pubs fy nm]
    have hs := foldl_tally_true_inv (currentQuarterOf nm)
      (filteredPubs pubs fy) initQState
    simp only [qsum, initQState] at hs
    simp only [initQState]
    omega
  refine ⟨hA, hB, ?_⟩
  by_cases hcur : fy = ny
  · simp [mismatchWarned, hcur]
  · simp [mismatchWarned, hcur, hA hcur]

/-- Witness for C9 at concrete inputs for both year cases. -/
theorem c9_quarterly_sum_invariant_witness :
    ((computeQuarterly [⟨.num 5, .null, none⟩] 5 6 1).1.qc.q1 +
     (computeQuarterly [⟨.num 5, .null, none⟩] 5 6 1).1.qc.q2 +
     (computeQuarterly [⟨.num 5, .null, none⟩] 5 6 1).1.qc.q3 +
     (computeQuarterly [⟨.num 5, .null, none⟩] 5 6 1).1.qc.q4 +
     (computeQuarterly [⟨.num 5, .null, none⟩] 5 6 1).1.without =
     (computeQuarterly [⟨.num 5, .null, none⟩] 5 6 1).2)
  ∧ ((computeQuarterly [⟨.num 5, .num 2, none⟩] 5 5 7).1.qc.q1 +
     (computeQuarterly [⟨.num 5, .num 2, none⟩] 5 5 7).1.qc.q2 +
     (computeQuarterly [⟨.num 5, .num 2, none⟩] 5 5 7).1.qc.q3 +
     (computeQuarterly [⟨.num 5, .num 2, none⟩] 5 5 7).1.qc.q4 =
     (computeQuarterly [⟨.num 5, .num 2, none⟩] 5 5 7).2) :=
  ⟨(c9_quarterly_sum_invariant [⟨.num 5, .null, none⟩] 5 6 1).1 (by decide),
   (c9_quarterly_sum_invariant [⟨.num 5, .num 2, none⟩] 5 5 7).2.1 rfl⟩

/-- Claim C1: with the current year filtered, a record whose valid month
maps to a quarter strictly after the current quarter leaves the loop state
unchanged (excluded from quarters and total); a record with a
missing/invalid month bumps only the without-month counter (excluded from
the total); total_publications equals the sum of the four quarter
counters; and the three-record example at February 2023 gives quarterly
counts (1,0,0,0) and total 1. -/
theorem c1_current_year_truncation :
    (∀ (curQ : Nat) (a : QState) (p : Pub) (m : Int),
        monthPresent p.month = true → parseMonth p.month = some m →
        1 ≤ m → m ≤ 12 → curQ < quarterOfMonthInt m →
        tallyPub true curQ a p = a)
  ∧ (∀ (curQ : Nat) (a : QState) (p : Pub),
        (monthPresent p.month = false ∨
          ∀ m : Int, parseMonth p.month = some m → ¬(1 ≤ m ∧ m ≤ 12)) →
        tallyPub true curQ a p = { a with without := a.without + 1 })
  ∧ (∀ (pubs : List Pub) (fy ny nm : Int), fy = ny →
        (computeQuarterly pubs fy ny nm).2 =
        (computeQuarterly pubs fy ny nm).1.qc.q1 +
        (computeQuarterly pubs fy ny nm).1.qc.q2 +
        (computeQuarterly pubs fy ny nm).1.qc.q3 +
        (computeQuarterly pubs fy ny nm).1.qc.q4)
  ∧ computeQuarterly
      [⟨.num 2023, .num 1, none⟩, ⟨.num 2023, .num 4, none⟩,
       ⟨.num 2023, .null, none⟩] 2023 2023 2 =
      (⟨⟨1, 0, 0, 0⟩, 1, 1⟩, 1) := by
  refine ⟨?_, ?_, ?_, by decide⟩
  · intro curQ a p m hmp hm h1 h2 hq
    have hr : 1 ≤ m ∧ m ≤ 12 := ⟨h1, h2⟩
    have hnot : ¬(quarterOfMonthInt m ≤ curQ) := by omega
    simp [tallyPub, hmp, hm, hr, tallyValidMonth, hnot]
  · intro curQ a p h
    rcases h with h | h
    · simp [tallyPub, h, withoutBump]
    · cases hm : parseMonth p.month with
      | none =>
        cases hmp : monthPresent p.month <;>
          simp [tallyPub, hmp, hm, withoutBump]
      | some m =>
        have hr := h m hm
        cases hmp : monthPresent p.month <;>
          simp [tallyPub, hmp, hm, hr, withoutBump]
  · intro pubs fy ny nm h
    subst h
    rw [computeQuarterly_eq_cur pubs fy nm]
    have hs := foldl_tally_true_inv (currentQuarterOf nm)
      (filteredPubs pubs fy) initQState
    simp only [qsum, initQState] at hs
    simp only [initQState]
    omega

/-- Witness for C1 at concrete inputs: a Q2 record with the current
quarter Q1, a month-less record, and the empty list for the total
equation. -/
theorem c1_current_year_truncation_witness :
    tallyPub true 1 initQState ⟨.null, .num 4, none⟩ = initQState
  ∧ tallyPub true 1 initQState ⟨.null, .null, none⟩ =
      { initQState with without := initQState.without + 1 }
  ∧ (computeQuarterly [] 0 0 1).2 =
      (computeQuarterly [] 0 0 1).1.qc.q1 +
      (computeQuarterly [] 0 0 1).1.qc.q2 +
      (computeQuarterly [] 0 0 1).1.qc.q3 +
      (computeQuarterly [] 0 0 1).1.qc.q4 :=
  ⟨c1_current_year_truncation.1 1 initQState ⟨.null, .num 4, none⟩ 4
      (by decide) (by decide) (by decide) (by decide) (by decide),
   c1_current_year_truncation.2.1 1 initQState ⟨.null, .null, none⟩
      (Or.inl (by decide)),
   c1_current_year_truncation.2.2.1 [] 0 0 1 rfl⟩

/-- Claim C2: with a non-current year filtered, total_publications is the
size of the subset of records whose normalized year equals the filter year
(unparseable years never enter the subset); a record with a valid month
1..12 increments exactly the quarter of the fixed mapping and the running
total; a month-less/invalid record still counts toward the total; and the
three-record example with now in 2024 gives quarterly counts (1,1,0,0)
and total 3. -/
theorem c2_non_current_year_aggregation :
    (∀ (pubs : List Pub) (fy ny nm : Int), fy ≠ ny →
        (computeQuarterly pubs fy ny nm).2 = (filteredPubs pubs fy).length)
  ∧ (∀ (pubs : List Pub) (fy : Int) (p : Pub),
        p ∈ filteredPubs pubs fy → getPubYear p.year = some fy)
  ∧ (∀ (curQ : Nat) (a : QState) (p : Pub) (m : Int),
        monthPresent p.month = true → parseMonth p.month = some m →
        1 ≤ m → m ≤ 12 →
        tallyPub false curQ a p =
          { a with
              qc := bumpQuarter a.qc (quarterOfMonthInt m),
              counted := a.counted + 1 })
  ∧ (∀ (curQ : Nat) (a : QState) (p : Pub),
        (monthPresent p.month = false ∨
          ∀ m : Int, parseMonth p.month = some m → ¬(1 ≤ m ∧ m ≤ 12)) →
        tallyPub false curQ a p =
          { a with
              without := a.without + 1,
              counted := a.counted + 1 })
  ∧ (∀ nm : Int,
        computeQuarterly
          [⟨.num 2023, .num 1, none⟩, ⟨.num 2023, .num 4, none⟩,
           ⟨.num 2023, .null, none⟩] 2023 2024 nm =
          (⟨⟨1, 1, 0, 0⟩, 1, 3⟩, 3)) := by
  refine ⟨?_, ?_, ?_, ?_, ?_⟩
  · intro pubs fy ny nm h
    rw [computeQuarterly_eq_noncur pubs fy ny nm h]
  · intro pubs fy p hp
    have hf := (List.mem_filter.mp hp).2
    exact of_decide_eq_true hf
  · intro curQ a p m hmp hm h1 h2
    have hr : 1 ≤ m ∧ m ≤ 12 := ⟨h1, h2⟩
    have hq := quarterOfMonthInt_pos m h1 h2
    simp [tallyPub, hmp, hm, hr, tallyValidMonth, hq]
  · intro curQ a p h
    rcases h with h | h
    · simp [tallyPub, h, withoutBump]
    · cases hm : parseMonth p.month with
      | none =>
        cases hmp : monthPresent p.month <;>
          simp [tallyPub, hmp, hm, withoutBump]
      | some m =>
        have hr := h m hm
        cases hmp : monthPresent p.month <;>
          simp [tallyPub, hmp, hm, hr, withoutBump]
  · intro nm
    rw [computeQuarterly_eq_noncur _ _ _ nm (by decide)]
    have hfun : tallyPub false (currentQuarterOf nm) = tallyPub false 1 := by
      funext a p
      exact tallyPub_false_curQ_irrel _ _ _ _
    rw [hfun]
    decide

/-- Witness for C2 at concrete inputs. -/
theorem c2_non_current_year_aggregation_witness :
    (computeQuarterly [⟨.num 7, .null, none⟩] 7 8 1).2 =
      (filteredPubs [⟨.num 7, .null, none⟩] 7).length
  ∧ getPubYear (Pub.year ⟨.num 7, .null, none⟩) = some (7 : Int)
  ∧ tallyPub false 2 initQState ⟨.null, .num 8, none⟩ =
      { initQState with
          qc := bumpQuarter initQState.qc (quarterOfMonthInt 8),
          counted := initQState.counted + 1 }
  ∧ tallyPub false 2 initQState ⟨.null, .str "nope", none⟩ =
      { initQState with
          without := initQState.without + 1,
          counted := initQState.counted + 1 } :=
  ⟨(c2_non_current_year_aggregation.1 [⟨.num 7, .null, none⟩] 7 8 1 (by decide)),
   (c2_non_current_year_aggregation.2.1 [⟨.num 7, .null, none⟩] 7
      ⟨.num 7, .null, none⟩ (by decide)),
   (c2_non_current_year_aggregation.2.2.1 2 initQState ⟨.null, .num 8, none⟩ 8
      (by decide) (by decide) (by decide) (by decide)),
   (c2_non_current_year_aggregation.2.2.2.1 2 initQState
      ⟨.null, .str "nope", none⟩
      (Or.inr (fun m hm => by
        have hnone : parseMonth (JSVal.str "nope") = none := by decide
        rw [hnone] at hm
        cases hm)))⟩

/-- Claim C10: the aggregation pass is total over arbitrary record
shapes: a record without a colleges sequence contributes nothing to the
college counts, and a month of any shape that is not a parseable in-range
value (an object or other coerced value, a non-numeric string, an
out-of-range number, null, undefined) is routed to the without-month arm
of the loop instead of raising an error. -/
theorem c10_record_interface_totality :
    (∀ (cc : CollegeCounts) (p : Pub), p.colleges = none →
        tallyColleges cc p = cc)
  ∧ (∀ (isCur : Bool) (curQ : Nat) (a : QState) (y : JSVal)
        (cs : Option (List String)) (s : String),
        parseIntNoRadix s.data = none →
        tallyPub isCur curQ a ⟨y, .other s, cs⟩ = withoutBump isCur a)
  ∧ (∀ (isCur : Bool) (curQ : Nat) (a : QState) (y : JSVal)
        (cs : Option (List String)) (s : String),
        parseIntNoRadix s.data = none →
        tallyPub isCur curQ a ⟨y, .str s, cs⟩ = withoutBump isCur a)
  ∧ (∀ (isCur : Bool) (curQ : Nat) (a : QState) (y : JSVal)
        (cs : Option (List String)) (q : ℚ),
        ratTrunc q < 1 ∨ 12 < ratTrunc q →
        tallyPub isCur curQ a ⟨y, .num q, cs⟩ = withoutBump isCur a)
  ∧ (∀ (isCur : Bool) (curQ : Nat) (a : QState) (y : JSVal)
        (cs : Option (List String)),
        tallyPub isCur curQ a ⟨y, .null, cs⟩ = withoutBump isCur a
      ∧ tallyPub isCur curQ a ⟨y, .undefined, cs⟩ = withoutBump isCur a) := by
  refine ⟨?_, ?_, ?_, ?_, ?_⟩
  · intro cc p h
    simp [tallyColleges, h]
  · intro isCur curQ a y cs s h
    simp [tallyPub, monthPresent, parseMonth, h]
  · intro isCur curQ a y cs s h
    by_cases hs : s = ""
    · subst hs
      simp [tallyPub, monthPresent]
    · simp [tallyPub, monthPresent, parseMonth, h, hs]
  · intro isCur curQ a y cs q h
    have hr : ¬(1 ≤ ratTrunc q ∧ ratTrunc q ≤ 12) := by omega
    simp [tallyPub, monthPresent, parseMonth, hr]
  · intro isCur curQ a y cs
    exact ⟨by simp [tallyPub, monthPresent], by simp [tallyPub, monthPresent]⟩

/-- Witness for C10: a colleges-less record, an object month, a
non-numeric string month, and the out-of-range month 13. -/
theorem c10_record_interface_totality_witness :
    tallyColleges ⟨1, 2, 3, 4⟩ ⟨.null, .null, none⟩ = ⟨1, 2, 3, 4⟩
  ∧ tallyPub true 1 initQState ⟨.null, .other "[object Object]", none⟩ =
      withoutBump true initQState
  ∧ tallyPub false 2 initQState ⟨.null, .str "abc", none⟩ =
      withoutBump false initQState
  ∧ tallyPub true 3 initQState ⟨.null, .num 13, none⟩ =
      withoutBump true initQState :=
  ⟨c10_record_interface_totality.1 ⟨1, 2, 3, 4⟩ ⟨.null, .null, none⟩ rfl,
   c10_record_interface_totality.2.1 true 1 initQState .null none
      "[object Object]" (by decide),
   c10_record_interface_totality.2.2.1 false 2 initQState .null none
      "abc" (by decide),
   c10_record_interface_totality.2.2.2.1 true 3 initQState .null none
      13 (by decide)⟩

/-- Claim C4: isCacheValid is true exactly when the stored version marker
parses to the schema constant CACHE_VERSION = 2, a stored timestamp
exists and parses to an integer, and the age now - timestamp is strictly
below CACHE_DURATION (24 hours in milliseconds); any missing key or parse
failure gives false. -/
theorem c4_cache_validity (st : Store) (now : Int) :
    isCacheValid st now = true ↔
      (storedVersion st = some CACHE_VERSION ∧
       ∃ ts, st.timestamp = some ts ∧
         ∃ t, parseIntNoRadix ts.data = some t ∧ now - t < CACHE_DURATION) := by
  cases hv : storedVersion st with
  | none => simp [isCacheValid, hv]
  | some v =>
    by_cases hveq : v = CACHE_VERSION
    · subst hveq
      cases hts : st.timestamp with
      | none => simp [isCacheValid, hv, hts]
      | some ts =>
        by_cases hempty : ts = ""
        · subst hempty
          have hnil : parseIntNoRadix (String.data "") = none := rfl
          simp [isCacheValid, hv, hts, hnil]
        · cases hpt : parseIntNoRadix ts.data with
          | none => simp [isCacheValid, hv, hts, hempty, hpt]
          | some t =>
            by_cases hage : now - t < CACHE_DURATION
            · simp [isCacheValid, hv, hts, hempty, hpt, hage]
            · simp [isCacheValid, hv, hts, hempty, hpt, hage]
    · simp [isCacheValid, hv, hveq]

/-- Claim C3: on any load execution that reaches the fetch and fails,
an existing cached envelope (of any age or version) is rendered, and only
when no cached envelope exists is the all-zero stats literal rendered. -/
theorem c3_stale_cache_fallback (st : Store) (now : Int)
    (hfetch : usesCache st now = false) :
    (∀ env : CacheEnvelope, st.data = some env →
        (loadAllData st now .failure).2.1 = env.dashboard_stats)
  ∧ (st.data = none → (loadAllData st now .failure).2.1 = zeroStats) := by
  constructor
  · intro env henv
    simp [loadAllData, hfetch, fetchBranch, henv]
  · intro hnone
    simp [loadAllData, hfetch, fetchBranch, hnone]

/-- Witness for C3: a store holding only a data envelope (no version or
timestamp, hence invalid) is still rendered on fetch failure; the empty
store renders the zero literal. -/
theorem c3_stale_cache_fallback_witness :
    (loadAllData
        ⟨some ⟨{ zeroStats with total_publications := 7 }, none⟩, none, none⟩
        0 .failure).2.1 = { zeroStats with total_publications := 7 }
  ∧ (loadAllData ⟨none, none, none⟩ 0 .failure).2.1 = zeroStats :=
  ⟨(c3_stale_cache_fallback
      ⟨some ⟨{ zeroStats with total_publications := 7 }, none⟩, none, none⟩
      0 (by decide)).1 ⟨{ zeroStats with total_publications := 7 }, none⟩ rfl,
   (c3_stale_cache_fallback ⟨none, none, none⟩ 0 (by decide)).2 rfl⟩

/-- Claim C7: with a cached envelope and a parseable filter year, the
rendered stats differ from the cached stats only in total_publications,
quarterly_counts and college_counts: the passthrough fields keep their
cached values, the store is unchanged, and no network request is
issued. -/
theorem c7_year_filter_frame (st : Store) (env : CacheEnvelope)
    (now nowYear nowMonth fy : Int) (f : FetchResult) (year : String)
    (hc : st.data = some env) (hy : parseIntCore year.data = some fy) :
    (loadDashboardData st now nowYear nowMonth f year).2.2 = false
  ∧ (loadDashboardData st now nowYear nowMonth f year).1 = st
  ∧ (loadDashboardData st now nowYear nowMonth f year).2.1.department_counts =
      env.dashboard_stats.department_counts
  ∧ (loadDashboardData st now nowYear nowMonth f year).2.1.department_quarterly_counts =
      env.dashboard_stats.department_quarterly_counts
  ∧ (loadDashboardData st now nowYear nowMonth f year).2.1.earliest_year =
      env.dashboard_stats.earliest_year
  ∧ (loadDashboardData st now nowYear nowMonth f year).2.1.total_publications =
      (computeQuarterly (env.publications.getD []) fy nowYear nowMonth).2
  ∧ (loadDashboardData st now nowYear nowMonth f year).2.1.quarterly_counts =
      (computeQuarterly (env.publications.getD []) fy nowYear nowMonth).1.qc
  ∧ (loadDashboardData st now nowYear nowMonth f year).2.1.college_counts =
      computeCollegeCounts (filteredPubs (env.publications.getD []) fy) := by
  have hne : ¬(year = "") := by
    intro h
    subst h
    rw [show String.data "" = [] from rfl, parseIntCore_nil] at hy
    cases hy
  refine ⟨?_, ?_, ?_, ?_, ?_, ?_, ?_, ?_⟩ <;>
    simp [loadDashboardData, hc, hne, hy, mergeStats]

/-- Witness for C7 at a concrete store, envelope and year string. -/
theorem c7_year_filter_frame_witness :
    (loadDashboardData
        ⟨some ⟨{ zeroStats with
                   department_counts := [("EE", 3)],
                   earliest_year := some 2020 },
               some [⟨.num 2023, .num 1, none⟩]⟩, none, none⟩
        0 2024 6 .failure "2023").2.2 = false
  ∧ (loadDashboardData
        ⟨some ⟨{ zeroStats with
                   department_counts := [("EE", 3)],
                   earliest_year := some 2020 },
               some [⟨.num 2023, .num 1, none⟩]⟩, none, none⟩
        0 2024 6 .failure "2023").1 =
      ⟨some ⟨{ zeroStats with
                 department_counts := [("EE", 3)],
                 earliest_year := some 2020 },
             some [⟨.num 2023, .num 1, none⟩]⟩, none, none⟩
  ∧ (loadDashboardData
        ⟨some ⟨{ zeroStats with
                   department_counts := [("EE", 3)],
                   earliest_year := some 2020 },
               some [⟨.num 2023, .num 1, none⟩]⟩, none, none⟩
        0 2024 6 .failure "2023").2.1.department_counts =
      ({ zeroStats with
           department_counts := [("EE", 3)],
           earliest_year := some 2020 } : DashboardStats).department_counts
  ∧ (loadDashboardData
        ⟨some ⟨{ zeroStats with
                   department_counts := [("EE", 3)],
                   earliest_year := some 2020 },
               some [⟨.num 2023, .num 1, none⟩]⟩, none, none⟩
        0 2024 6 .failure "2023").2.1.department_quarterly_counts =
      ({ zeroStats with
           department_counts := [("EE", 3)],
           earliest_year := some 2020 } : DashboardStats).department_quarterly_counts
  ∧ (loadDashboardData
        ⟨some ⟨{ zeroStats with
                   department_counts := [("EE", 3)],
                   earliest_year := some 2020 },
               some [⟨.num 2023, .num 1, none⟩]⟩, none, none⟩
        0 2024 6 .failure "2023").2.1.earliest_year =
      ({ zeroStats with
           department_counts := [("EE", 3)],
           earliest_year := some 2020 } : DashboardStats).earliest_year
  ∧ (loadDashboardData
        ⟨some ⟨{ zeroStats with
                   department_counts := [("EE", 3)],
                   earliest_year := some 2020 },
               some [⟨.num 2023, .num 1, none⟩]⟩, none, none⟩
        0 2024 6 .failure "2023").2.1.total_publications =
      (computeQuarterly [⟨.num 2023, .num 1, none⟩] 2023 2024 6).2
  ∧ (loadDashboardData
        ⟨some ⟨{ zeroStats with
                   department_counts := [("EE", 3)],
                   earliest_year := some 2020 },
               some [⟨.num 2023, .num 1, none⟩]⟩, none, none⟩
        0 2024 6 .failure "2023").2.1.quarterly_counts =
      (computeQuarterly [⟨.num 2023, .num 1, none⟩] 2023 2024 6).1.qc
  ∧ (loadDashboardData
        ⟨some ⟨{ zeroStats with
                   department_counts := [("EE", 3)],
                   earliest_year := some 2020 },
               some [⟨.num 2023, .num 1, none⟩]⟩, none, none⟩
        0 2024 6 .failure "2023").2.1.college_counts =
      computeCollegeCounts
        (filteredPubs [⟨.num 2023, .num 1, none⟩] 2023) :=
  c7_year_filter_frame
    ⟨some ⟨{ zeroStats with
               department_counts := [("EE", 3)],
               earliest_year := some 2020 },
           some [⟨.num 2023, .num 1, none⟩]⟩, none, none⟩
    ⟨{ zeroStats with
         department_counts := [("EE", 3)],
         earliest_year := some 2020 },
     some [⟨.num 2023, .num 1, none⟩]⟩
    0 2024 6 2023 .failure "2023" rfl (by decide)

/-- Claim C8: with a cached envelope and a non-empty filter year that
does not parse as an integer, the cached stats pass through completely
unchanged with no network request. -/
theorem c8_invalid_filter_year_passthrough (st : Store)
    (env : CacheEnvelope) (now nowYear nowMonth : Int) (f : FetchResult)
    (year : String) (hc : st.data = some env) (hne : year ≠ "")
    (hy : parseIntCore year.data = none) :
    loadDashboardData st now nowYear nowMonth f year =
      (st, env.dashboard_stats, false) := by
  simp [loadDashboardData, hc, hne, hy]

/-- Witness for C8 at the unparseable year string "abc". -/
theorem c8_invalid_filter_year_passthrough_witness :
    loadDashboardData
      ⟨some ⟨{ zeroStats with total_publications := 9 }, some []⟩, none, none⟩
      0 2024 6 .failure "abc" =
      (⟨some ⟨{ zeroStats with total_publications := 9 }, some []⟩, none, none⟩,
       { zeroStats with total_publications := 9 }, false) :=
  c8_invalid_filter_year_passthrough
    ⟨some ⟨{ zeroStats with total_publications := 9 }, some []⟩, none, none⟩
    ⟨{ zeroStats with total_publications := 9 }, some []⟩
    0 2024 6 .failure "abc" rfl (by decide) (by decide)

lemma getPubYear_str (s : String) (hs : ¬(s = "")) :
    getPubYear (.str s) =
      match parseIntCore (jsTrim (s.data.takeWhile (fun c => c ≠ '/'))) with
      | some y => if y = 0 then parseIntCore (jsTrim s.data) else some y
      | none => parseIntCore (jsTrim s.data) := by
  simp only [getPubYear]
  rw [if_neg hs]

lemma intCast_rat_floor (n : Int) : ((n : ℚ)).floor = n := by
  rw [Rat.floor_def']
  simp

lemma normalizeYearSpec_str_slash (s : String) (hs : ¬(s = ""))
    (hsl : '/' ∈ s.data) :
    normalizeYearSpec (.str s) =
      match parseIntCore (jsTrim (s.data.takeWhile (fun c => c ≠ '/'))) with
      | some y => some y
      | none => parseIntCore (jsTrim s.data) := by
  simp only [normalizeYearSpec]
  rw [if_neg hs, if_pos hsl]

lemma normalizeYearSpec_str_noslash (s : String) (hs : ¬(s = ""))
    (hsl : ¬('/' ∈ s.data)) :
    normalizeYearSpec (.str s) = parseIntCore s.data := by
  simp only [normalizeYearSpec]
  rw [if_neg hs, if_neg hsl]

/-- Claim C5: getPubYear agrees with the spec's normalizeYear contract on
every input (null/empty give null, finite numbers floor, slash strings
parse the trimmed prefix with whole-string fallback, other strings and
coerced values parse as integers, anything unparseable gives null), and
the stated examples hold: "2023/05" gives 2023, the empty string and null
give null, and integers normalize to themselves. -/
theorem c5_year_normalization :
    (∀ v : JSVal, getPubYear v = normalizeYearSpec v)
  ∧ getPubYear (.str "2023/05") = some 2023
  ∧ getPubYear (.str "") = none
  ∧ getPubYear .null = none
  ∧ getPubYear .undefined = none
  ∧ (∀ n : Int, getPubYear (.num (n : ℚ)) = some n) := by
  refine ⟨?_, by decide, by decide, rfl, rfl, ?_⟩
  · intro v
    cases v with
    | null => rfl
    | undefined => rfl
    | num q => rfl
    | other s => rfl
    | str s =>
      by_cases hs : s = ""
      · simp [getPubYear, normalizeYearSpec, hs]
      · rw [getPubYear_str s hs]
        by_cases hsl : '/' ∈ s.data
        · obtain ⟨r, hr⟩ := dropWhile_slash_mem s.data hsl
          have hsplit : s.data =
              s.data.takeWhile (fun c => c ≠ '/') ++ '/' :: r := by
            conv_lhs => rw [← List.takeWhile_append_dropWhile
              (p := fun c => decide (c ≠ '/')) (l := s.data)]
            rw [hr]
          rw [normalizeYearSpec_str_slash s hs hsl]
          cases hp : parseIntCore (jsTrim (s.data.takeWhile (fun c => c ≠ '/'))) with
          | none => rfl
          | some y =>
            by_cases hy : y = 0
            · subst hy
              have h1 : parseIntCore (jsTrim s.data) = parseIntCore s.data :=
                parseIntCore_jsTrim _
              have h2 : parseIntCore s.data = some 0 := by
                calc parseIntCore s.data
                    = parseIntCore (s.data.takeWhile (fun c => c ≠ '/') ++ '/' :: r) := by
                      rw [← hsplit]
                  _ = parseIntCore (s.data.takeWhile (fun c => c ≠ '/')) :=
                      parseIntCore_append_slash _ r
                  _ = parseIntCore (jsTrim (s.data.takeWhile (fun c => c ≠ '/'))) :=
                      (parseIntCore_jsTrim _).symm
                  _ = some 0 := hp
              simp [h1, h2]
            · simp [hy]
        · have ha : s.data.takeWhile (fun c => c ≠ '/') = s.data :=
            takeWhile_ne_slash_of_not_mem _ hsl
          rw [ha, normalizeYearSpec_str_noslash s hs hsl]
          have ht := parseIntCore_jsTrim s.data
          cases hp : parseIntCore (jsTrim s.data) with
          | none =>
            have hws : parseIntCore s.data = none := by rw [← ht]; exact hp
            rw [hws]
          | some y =>
            have hws : parseIntCore s.data = some y := by rw [← ht]; exact hp
            rw [hws]
            by_cases hy : y = 0
            · subst hy
              simp [ht, hws]
            · simp [hy]
  · intro n
    show some ((n : ℚ)).floor = some n
    rw [intCast_rat_floor]

end BSUDash
